import Mathlib

/-!
Verification of the eligibility-signposting rule engine.

The campaign configuration model (`campaign_config.py`) is embedded directly
from the source.  Calendar dates are embedded as natural numbers ordered like
dates (a `YYYYMMDD` date maps to the natural number with those digits, which
preserves the calendar order).  Python strings are embedded as `String`;
`str.strip`/`str.upper` are embedded for the ASCII values configuration files
use.  A Python function that can raise is embedded as a function into
`Except`, an error value standing for the raised exception.

The eligibility calculator, token expander and facade are not part of the
sources available here (only their tests are); those parts are modelled from
the specification, and each such definition carries a doc comment starting
with `Modelled from the spec:`.
-/

deriving instance DecidableEq for Except

namespace EligibilitySignposting

/-- Whitespace test used by the embedded `str.strip`. -/
def isSpaceChar (c : Char) : Bool :=
  c = ' ' || c = '\t' || c = '\n' || c = '\r'

/-- ASCII upper-casing of one character, embedding `str.upper` on ASCII. -/
def upperChar (c : Char) : Char :=
  if 'a' ≤ c ∧ c ≤ 'z' then Char.ofNat (c.toNat - 32) else c

/-- Embedded `str.upper` (ASCII). -/
def upperStr (s : String) : String :=
  String.mk (s.data.map upperChar)

/-- Embedded `str.strip` (ASCII whitespace). -/
def stripStr (s : String) : String :=
  String.mk (((s.data.dropWhile isSpaceChar).reverse.dropWhile isSpaceChar).reverse)

/-- Embeds `Virtual(StrEnum)` of `campaign_config.py`. -/
inductive Virtual
  | yes
  | no
deriving DecidableEq

/-- Embeds `RuleType(StrEnum)` of `campaign_config.py`: F, S, R, X, Y. -/
inductive RuleType
  | filter
  | suppression
  | redirect
  | notEligibleActions
  | notActionableActions
deriving DecidableEq

/-- Embeds `IterationCohort` of `campaign_config.py` (validated form: the
`virtual` field already normalised to the enum). -/
structure IterationCohort where
  cohort_label : String
  cohort_group : String
  positive_description : Option String
  negative_description : Option String
  priority : Option Int
  virtual : Virtual
deriving DecidableEq

/-- Embeds `IterationCohort.is_virtual_cohort`. -/
def IterationCohort.is_virtual_cohort (c : IterationCohort) : Bool :=
  c.virtual = Virtual.yes

/-- Embeds the `normalize_virtual` field validator of `IterationCohort`:
`None` maps to `N`; strings are stripped and upper-cased and must then be
`"Y"` or `"N"`; anything else raises `ValueError`. -/
def normalize_virtual (value : Option String) : Except String Virtual :=
  match value with
  | none => .ok Virtual.no
  | some s =>
    let v := upperStr (stripStr s)
    if v = "Y" then .ok Virtual.yes
    else if v = "N" then .ok Virtual.no
    else .error ("Invalid value for Virtual: " ++ s)

/-- Embeds `IterationRule` of `campaign_config.py`.  The operator and
comparator are kept as the plain strings the model stores; they are consumed
only by the comparator engine, which is outside this model. -/
structure IterationRule where
  type : RuleType
  name : String
  description : String
  priority : Int
  attribute_level : String
  attribute_name : Option String
  cohort_label : Option String
  operator : String
  comparator : String
  attribute_target : Option String
  rule_stop : Bool
  comms_routing : Option String
deriving DecidableEq

/-- Embeds `AvailableAction` of `campaign_config.py`. -/
structure AvailableAction where
  action_type : String
  action_code : String
  action_description : Option String
  url_link : Option String
  url_label : Option String
deriving DecidableEq

/-- Embeds `ActionsMapper` (a dict from routing key to action). -/
structure ActionsMapper where
  root : List (String × AvailableAction)
deriving DecidableEq

/-- Embeds `ActionsMapper.get`. -/
def ActionsMapper.get (m : ActionsMapper) (key : String) : Option AvailableAction :=
  (m.root.find? (fun kv => kv.fst == key)).map Prod.snd

/-- Embeds `StatusText` of `campaign_config.py`. -/
structure StatusTextConfig where
  not_eligible : Option String
  not_actionable : Option String
  actionable : Option String
deriving DecidableEq

/-- Embeds `Iteration` of `campaign_config.py` (the fields the calculator
reads; approval metadata is dropped). -/
structure Iteration where
  id : String
  iteration_date : Nat
  default_comms_routing : String
  default_not_eligible_routing : String
  default_not_actionable_routing : String
  iteration_cohorts : List IterationCohort
  iteration_rules : List IterationRule
  actions_mapper : ActionsMapper
  status_text : Option StatusTextConfig
deriving DecidableEq

/-- Embeds `CampaignConfig` of `campaign_config.py` (the fields the
calculator reads). -/
structure CampaignConfig where
  id : String
  target : String
  start_date : Nat
  end_date : Nat
  iterations : List Iteration
deriving DecidableEq

/-- Embeds `CampaignConfig.campaign_live`: `start_date <= today <= end_date`. -/
def CampaignConfig.campaign_live (c : CampaignConfig) (today : Nat) : Bool :=
  decide (c.start_date ≤ today ∧ today ≤ c.end_date)

/-- Order used by `current_iteration`: descending by `iteration_date`. -/
def iterDateGE (a b : Iteration) : Prop :=
  b.iteration_date ≤ a.iteration_date

instance : DecidableRel iterDateGE :=
  fun a b => Nat.decLe b.iteration_date a.iteration_date

instance : IsTotal Iteration iterDateGE :=
  ⟨fun a b => Nat.le_total b.iteration_date a.iteration_date⟩

instance : IsTrans Iteration iterDateGE :=
  ⟨fun _ _ _ h1 h2 => Nat.le_trans h2 h1⟩

/-- Embeds `CampaignConfig.current_iteration`: sort the iterations by
`iteration_date` descending and take the first with `iteration_date <= today`.
The Python `next(...)` has no default, so it raises `StopIteration` when no
iteration qualifies; that raise is embedded as the `none` result. -/
def CampaignConfig.current_iteration (c : CampaignConfig) (today : Nat) : Option Iteration :=
  (c.iterations.insertionSort iterDateGE).find? (fun i => decide (i.iteration_date ≤ today))

/-- Raw cohort as it arrives in the JSON, before the `Virtual` field
validator has run. -/
structure RawIterationCohort where
  cohort_label : String
  cohort_group : String
  positive_description : Option String
  negative_description : Option String
  priority : Option Int
  virtual : Option String
deriving DecidableEq

/-- Raw iteration: as `Iteration` but with raw cohorts. -/
structure RawIteration where
  id : String
  iteration_date : Nat
  default_comms_routing : String
  default_not_eligible_routing : String
  default_not_actionable_routing : String
  iteration_cohorts : List RawIterationCohort
  iteration_rules : List IterationRule
  actions_mapper : ActionsMapper
  status_text : Option StatusTextConfig
deriving DecidableEq

/-- Raw campaign configuration, before pydantic validation. -/
structure RawCampaignConfig where
  id : String
  target : String
  start_date : Nat
  end_date : Nat
  iterations : List RawIteration
deriving DecidableEq

/-- Sequencing of fallible parses over a list (first error wins). -/
def mapExcept (f : α → Except ε β) : List α → Except ε (List β)
  | [] => .ok []
  | a :: l =>
    match f a with
    | .error e => .error e
    | .ok b =>
      match mapExcept f l with
      | .error e => .error e
      | .ok bs => .ok (b :: bs)

/-- Field validation of one cohort: run `normalize_virtual`. -/
def parseIterationCohort (r : RawIterationCohort) : Except String IterationCohort :=
  match normalize_virtual r.virtual with
  | .error e => .error e
  | .ok v =>
    .ok { cohort_label := r.cohort_label, cohort_group := r.cohort_group,
          positive_description := r.positive_description,
          negative_description := r.negative_description,
          priority := r.priority, virtual := v }

/-- Field validation of one iteration: validate each cohort. -/
def parseIteration (r : RawIteration) : Except String Iteration :=
  match mapExcept parseIterationCohort r.iteration_cohorts with
  | .error e => .error e
  | .ok cs =>
    .ok { id := r.id, iteration_date := r.iteration_date,
          default_comms_routing := r.default_comms_routing,
          default_not_eligible_routing := r.default_not_eligible_routing,
          default_not_actionable_routing := r.default_not_actionable_routing,
          iteration_cohorts := cs, iteration_rules := r.iteration_rules,
          actions_mapper := r.actions_mapper, status_text := r.status_text }

/-- Embeds the duplicate-date detection of `check_no_overlapping_iterations`
(`Counter` finding a date with count above 1). -/
def hasDuplicateDates (l : List Nat) : Bool :=
  l.any (fun d => decide (1 < l.count d))

/-- Embeds pydantic validation of `CampaignConfig`: field validators
(cohort `Virtual` normalisation inside the iterations, `min_length=1` on
`Iterations`), then the model validators `check_start_and_end_dates_sensible`
and `check_no_overlapping_iterations`. -/
def parseCampaignConfig (r : RawCampaignConfig) : Except String CampaignConfig :=
  match mapExcept parseIteration r.iterations with
  | .error e => .error e
  | .ok its =>
    if its.isEmpty then
      .error "List should have at least 1 item"
    else if decide (r.end_date < r.start_date) then
      .error "start date after end date"
    else if hasDuplicateDates (its.map (fun i => i.iteration_date)) then
      .error "multiple iterations with the same iteration date"
    else
      .ok { id := r.id, target := r.target, start_date := r.start_date,
            end_date := r.end_date, iterations := its }

/-- Modelled from the spec: the `Status` ordered enum of the missing
`eligibility_status` model, with the order
`NotEligible < NotActionable < Actionable`. -/
inductive Status
  | notEligible
  | notActionable
  | actionable
deriving DecidableEq

/-- Numeric rank realising the order `NotEligible < NotActionable < Actionable`. -/
def Status.rank : Status → Nat
  | .notEligible => 0
  | .notActionable => 1
  | .actionable => 2

/-- Maximum of two statuses under the precedence order. -/
def maxStatus (a b : Status) : Status :=
  if a.rank ≤ b.rank then b else a

/-- Modelled from the spec: the Status Aggregator of the missing calculator.
Any actionable cohort makes the campaign actionable; else any not-actionable
cohort makes it not-actionable; else not-eligible. -/
def campaignStatusOfVerdicts (vs : List Status) : Status :=
  if vs.contains Status.actionable then Status.actionable
  else if vs.contains Status.notActionable then Status.notActionable
  else Status.notEligible

/-- Modelled from the spec: the Cohort Resolver of the missing calculator.
The working set is every virtual iteration cohort plus every non-virtual
iteration cohort whose label is in the person's cohort set. -/
def workingSet (personCohorts : List String) (cohorts : List IterationCohort) :
    List IterationCohort :=
  cohorts.filter (fun c => c.is_virtual_cohort || personCohorts.contains c.cohort_label)

/-- Modelled from the spec: the rules that apply to one cohort work item are
the rules with no `cohort_label` plus the rules whose `cohort_label` equals
this cohort's label. -/
def ruleAppliesToCohort (label : String) (r : IterationRule) : Bool :=
  match r.cohort_label with
  | none => true
  | some l => l == label

/-- The rules of an iteration that apply to the cohort with the given label. -/
def rulesForCohort (label : String) (rules : List IterationRule) : List IterationRule :=
  rules.filter (ruleAppliesToCohort label)

/-- The priority group: the rules of one type sharing one priority value. -/
def rulesOfTypeAndPriority (t : RuleType) (p : Int) (rules : List IterationRule) :
    List IterationRule :=
  rules.filter (fun r => r.type == t && r.priority == p)

/-- The distinct priority values occurring among rules of one type. -/
def prioritiesOfType (t : RuleType) (rules : List IterationRule) : List Int :=
  ((rules.filter (fun r => r.type == t)).map (fun r => r.priority)).dedup

/-- Modelled from the spec: a priority group fires iff it is non-empty and
every rule in it matches the person.  The person-matching itself is the
missing comparator engine, abstracted as the predicate `m`. -/
def groupFires (m : IterationRule → Bool) (g : List IterationRule) : Bool :=
  !g.isEmpty && g.all m

/-- Modelled from the spec: some priority group of the given rule type fires. -/
def typeFires (m : IterationRule → Bool) (t : RuleType) (rules : List IterationRule) : Bool :=
  (prioritiesOfType t rules).any (fun p => groupFires m (rulesOfTypeAndPriority t p rules))

/-- Modelled from the spec: the per-cohort verdict of the missing Rule
Evaluator.  If any filter priority group fires the cohort is NotEligible;
only otherwise are suppression groups evaluated, and if any fires the cohort
is NotActionable; otherwise the cohort is Actionable. -/
def evalCohortStatus (m : IterationRule → Bool) (rules : List IterationRule)
    (label : String) : Status :=
  let app := rulesForCohort label rules
  if typeFires m RuleType.filter app then Status.notEligible
  else if typeFires m RuleType.suppression app then Status.notActionable
  else Status.actionable

/-- Modelled from the spec: the status the missing calculator gives one
iteration for one person — NotEligible when the working set is empty, else
the aggregation of the per-cohort verdicts. -/
def iterationStatus (m : IterationRule → Bool) (personCohorts : List String)
    (it : Iteration) : Status :=
  let ws := workingSet personCohorts it.iteration_cohorts
  if ws.isEmpty then Status.notEligible
  else
    campaignStatusOfVerdicts
      (ws.map (fun c => evalCohortStatus m it.iteration_rules c.cohort_label))

/-- Modelled from the spec: a `Reason` of the missing `eligibility_status`
model (rule priorities are carried as strings there). -/
structure Reason where
  rule_type : RuleType
  rule_name : String
  rule_priority : String
  rule_description : String
  matcher_matched : Bool
deriving DecidableEq

/-- The grouping key the calculator's tests pin for reason deduplication:
the rule type together with the rule priority. -/
def reasonGroupKey (r : Reason) : RuleType × String :=
  (r.rule_type, r.rule_priority)

/-- Reason deduplication pass carrying the group keys already seen. -/
def dedupReasonsAux (seen : List (RuleType × String)) : List Reason → List Reason
  | [] => []
  | r :: rest =>
    if seen.contains (reasonGroupKey r) then dedupReasonsAux seen rest
    else r :: dedupReasonsAux (reasonGroupKey r :: seen) rest

/-- Modelled from the spec: reason deduplication — the first reason of each
group survives, later reasons with the same group key are dropped.  The
calculator's tests pin the group key as `(rule_type, rule_priority)`. -/
def dedupReasons (l : List Reason) : List Reason :=
  dedupReasonsAux [] l

/-- Order-preserving deduplication pass carrying the values already seen. -/
def dedupKeepFirstAux (seen : List String) : List String → List String
  | [] => []
  | a :: l =>
    if seen.contains a then dedupKeepFirstAux seen l
    else a :: dedupKeepFirstAux (a :: seen) l

/-- Order-preserving deduplication of strings, keeping first occurrences. -/
def dedupKeepFirst (l : List String) : List String :=
  dedupKeepFirstAux [] l

/-- Modelled from the spec: a `CohortGroupResult` of the missing
`eligibility_status` model. -/
structure CohortGroupResult where
  cohort_code : String
  status : Status
  reasons : List Reason
  description : String
  audit_rules : List Reason
deriving DecidableEq

/-- Modelled from the spec: a `SuggestedAction` of the missing
`eligibility_status` model. -/
structure SuggestedAction where
  action_type : String
  action_code : String
  action_description : Option String
  url_link : Option String
  url_label : Option String
deriving DecidableEq

/-- Modelled from the spec: an `IterationResult` of the missing
`eligibility_status` model. -/
structure IterationResult where
  status : Status
  status_text : Option String
  cohort_group_results : List CohortGroupResult
  actions : List SuggestedAction
deriving DecidableEq

/-- Modelled from the spec: a `Condition` of the missing
`eligibility_status` model. -/
structure Condition where
  condition_name : String
  status : Status
  status_text : String
  cohort_results : List CohortGroupResult
  suitability_rules : List Reason
  actions : List SuggestedAction
deriving DecidableEq

/-- Modelled from the spec: the default status texts of section 6. -/
def defaultStatusText (s : Status) (name : String) : String :=
  match s with
  | .notEligible => "We do not believe you can have it"
  | _ => "You should have the " ++ name ++ " vaccine"

/-- First non-empty description of a cohort group, empty when none. -/
def firstNonEmptyDescription (ds : List String) : String :=
  match ds.find? (fun d => !(d == "")) with
  | some d => d
  | none => ""

/-- Modelled from the spec: merging the surviving rows of one cohort group —
first non-empty description wins, reasons are concatenated and deduplicated. -/
def mergeRowsForCode (st : Status) (code : String) (rows : List CohortGroupResult) :
    CohortGroupResult :=
  let group := rows.filter (fun r => r.cohort_code == code)
  { cohort_code := code, status := st,
    reasons := dedupReasons (group.map (fun r => r.reasons)).flatten,
    description := firstNonEmptyDescription (group.map (fun r => r.description)),
    audit_rules := (group.map (fun r => r.audit_rules)).flatten }

/-- Modelled from the spec: `EligibilityCalculator.build_condition` — keep
the cohort rows whose status matches the iteration status, merge rows with
the same cohort code, and deduplicate the surviving reasons into the
condition's suitability rules. -/
def build_condition (ir : IterationResult) (name : String) : Condition :=
  let surviving := ir.cohort_group_results.filter (fun r => r.status == ir.status)
  let codes := dedupKeepFirst (surviving.map (fun r => r.cohort_code))
  { condition_name := name, status := ir.status,
    status_text :=
      match ir.status_text with
      | some t => t
      | none => defaultStatusText ir.status name,
    cohort_results := codes.map (fun code => mergeRowsForCode ir.status code surviving),
    suitability_rules := dedupReasons (surviving.map (fun r => r.reasons)).flatten,
    actions := ir.actions }

/-- Modelled from the spec: the error taxonomy of the missing token
expander — a malformed token fails with `InvalidToken`; the tests further pin
that referencing an attribute name absent from the person's data raises a
`ValueError`, embedded here as `unknownAttribute`. -/
inductive TokenErr
  | invalidToken
  | unknownAttribute
deriving DecidableEq

/-- Modelled from the spec: the person rows presented as typed lookups — the
PERSON attribute bag, the TARGET attribute bags keyed by target name, and the
cohort label set.  An attribute key may be present with no value. -/
structure PersonData where
  cohorts : List String
  person_attrs : List (String × Option String)
  target_attrs : List (String × List (String × Option String))
deriving DecidableEq

/-- Attribute lookup as the tests pin it: a key absent from the bag fails,
a key present without a value yields the empty string. -/
def lookupAttr (attrs : List (String × Option String)) (name : String) :
    Except TokenErr String :=
  match attrs.find? (fun kv => kv.fst == name) with
  | none => .error TokenErr.unknownAttribute
  | some (_, none) => .ok ""
  | some (_, some v) => .ok v

/-- Modelled from the spec: what a well-formed token references. -/
inductive TokenRef
  | person (attr : String)
  | target (tname : String) (attr : String)
deriving DecidableEq

/-- Modelled from the spec: a parsed token — a reference plus an optional
`:DATE(<format>)` conversion. -/
structure ParsedToken where
  ref : TokenRef
  dateFormat : Option String
deriving DecidableEq

/-- Splits a character list at every occurrence of the separator. -/
def splitOnChar (sep : Char) : List Char → List (List Char)
  | [] => [[]]
  | c :: rest =>
    let r := splitOnChar sep rest
    if c = sep then [] :: r
    else
      match r with
      | [] => [[c]]
      | h :: t => (c :: h) :: t

/-- Splits a character list at the first occurrence of the separator; the
second component is `none` when the separator does not occur. -/
def breakOnChar (sep : Char) : List Char → List Char × Option (List Char)
  | [] => ([], none)
  | c :: rest =>
    if c = sep then ([], some rest)
    else
      match breakOnChar sep rest with
      | (pre, post) => (c :: pre, post)

/-- Recognises the `DATE(<format>)` shape of a token post-fix. -/
def parseDatePostfix (post : List Char) : Option (List Char) :=
  match post with
  | 'D' :: 'A' :: 'T' :: 'E' :: '(' :: rest =>
    match rest.reverse with
    | ')' :: revfmt => some revfmt.reverse
    | _ => none
  | _ => none

/-- Modelled from the spec: parsing of one token body — an optional postfix
after `:` which must be `DATE(<format>)` (any other post-fix is an error),
and a dotted path `PERSON.<ATTR>` or `TARGET.<TARGET_NAME>.<ATTR>`; any other
shape is a malformed token. -/
def parseToken (body : List Char) : Except TokenErr ParsedToken :=
  match breakOnChar ':' body with
  | (pre, postOpt) =>
    let fmtE : Except TokenErr (Option String) :=
      match postOpt with
      | none => .ok none
      | some post =>
        match parseDatePostfix post with
        | some fmt => .ok (some (String.mk fmt))
        | none => .error TokenErr.invalidToken
    match fmtE with
    | .error e => .error e
    | .ok fmt =>
      match splitOnChar '.' pre with
      | [src, attr] =>
        if src = "PERSON".data then .ok ⟨TokenRef.person (String.mk attr), fmt⟩
        else .error TokenErr.invalidToken
      | [src, tname, attr] =>
        if src = "TARGET".data then
          .ok ⟨TokenRef.target (String.mk tname) (String.mk attr), fmt⟩
        else .error TokenErr.invalidToken
      | _ => .error TokenErr.invalidToken

/-- Full English month name of a `MM` month number. -/
def monthName (mm : String) : String :=
  if mm = "01" then "January" else if mm = "02" then "February"
  else if mm = "03" then "March" else if mm = "04" then "April"
  else if mm = "05" then "May" else if mm = "06" then "June"
  else if mm = "07" then "July" else if mm = "08" then "August"
  else if mm = "09" then "September" else if mm = "10" then "October"
  else if mm = "11" then "November" else if mm = "12" then "December"
  else mm

/-- Abbreviated month name. -/
def monthAbbrev (mm : String) : String :=
  String.mk ((monthName mm).data.take 3)

/-- Strips leading zeros (keeping a single zero for the all-zero numeral). -/
def dropLeadingZeros (l : List Char) : List Char :=
  match l.dropWhile (fun c => c = '0') with
  | [] => ['0']
  | r => r

/-- Modelled from the spec: substitution of the calendar format directives
(`%Y %m %d %B %b %e`) with the pieces of a `YYYYMMDD` value; directives
outside the supported subset are kept verbatim. -/
def applyDateFormatAux (y mm d : List Char) : List Char → List Char
  | [] => []
  | '%' :: c :: rest =>
    let sub :=
      if c = 'Y' then y
      else if c = 'm' then mm
      else if c = 'd' then d
      else if c = 'B' then (monthName (String.mk mm)).data
      else if c = 'b' then (monthAbbrev (String.mk mm)).data
      else if c = 'e' then dropLeadingZeros d
      else ['%', c]
    sub ++ applyDateFormatAux y mm d rest
  | c :: rest => c :: applyDateFormatAux y mm d rest

/-- Reformats a `YYYYMMDD` value with a calendar format string. -/
def applyDateFormat (fmt : String) (value : String) : String :=
  String.mk
    (applyDateFormatAux (value.data.take 4) ((value.data.drop 4).take 2)
      ((value.data.drop 6).take 2) fmt.data)

/-- Resolution of a token reference against the person's rows. -/
def resolveRef (p : PersonData) : TokenRef → Except TokenErr String
  | .person attr => lookupAttr p.person_attrs attr
  | .target tname attr =>
    match p.target_attrs.find? (fun kv => kv.fst == tname) with
    | none => .error TokenErr.unknownAttribute
    | some (_, attrs) => lookupAttr attrs attr

/-- Modelled from the spec: expansion of one token — parse it, resolve the
reference, and apply the optional date conversion (an empty value stays
empty). -/
def expandToken (p : PersonData) (body : List Char) : Except TokenErr String :=
  match parseToken body with
  | .error e => .error e
  | .ok tk =>
    match resolveRef p tk.ref with
    | .error e => .error e
    | .ok v =>
      match tk.dateFormat with
      | none => .ok v
      | some fmt => if v == "" then .ok "" else .ok (applyDateFormat fmt v)

/-- State of the token scanner: outside any token, just after a single
opening bracket, inside a token body (collected in reverse), or inside a
token body just after a single closing bracket. -/
inductive ScanState
  | outside
  | openBracket
  | inside (acc : List Char)
  | insideClose (acc : List Char)

/-- Modelled from the spec: the scan of a string for double-bracket tokens,
expanding each in place; an unclosed token is malformed.  One character is
consumed per step; a token body opens at `[[` and closes at the first
following `]]`. -/
def scanAux (p : PersonData) : List Char → ScanState → Except TokenErr (List Char)
  | [], ScanState.outside => .ok []
  | [], ScanState.openBracket => .ok ['[']
  | [], ScanState.inside _ => .error TokenErr.invalidToken
  | [], ScanState.insideClose _ => .error TokenErr.invalidToken
  | c :: rest, ScanState.outside =>
    if c = '[' then scanAux p rest ScanState.openBracket
    else
      match scanAux p rest ScanState.outside with
      | .error e => .error e
      | .ok out => .ok (c :: out)
  | c :: rest, ScanState.openBracket =>
    if c = '[' then scanAux p rest (ScanState.inside [])
    else
      match scanAux p rest ScanState.outside with
      | .error e => .error e
      | .ok out => .ok ('[' :: c :: out)
  | c :: rest, ScanState.inside acc =>
    if c = ']' then scanAux p rest (ScanState.insideClose acc)
    else scanAux p rest (ScanState.inside (c :: acc))
  | c :: rest, ScanState.insideClose acc =>
    if c = ']' then
      match expandToken p acc.reverse with
      | .error e => .error e
      | .ok v =>
        match scanAux p rest ScanState.outside with
        | .error e => .error e
        | .ok out => .ok (v.data ++ out)
    else scanAux p rest (ScanState.inside (c :: ']' :: acc))

/-- Token expansion over the characters of a string. -/
def expandChars (p : PersonData) (l : List Char) : Except TokenErr (List Char) :=
  scanAux p l ScanState.outside

/-- Modelled from the spec: token expansion of a whole string. -/
def expandString (p : PersonData) (s : String) : Except TokenErr String :=
  match expandChars p s.data with
  | .error e => .error e
  | .ok out => .ok (String.mk out)

/-- Token expansion of an optional string (absent stays absent). -/
def expandOptionString (p : PersonData) : Option String → Except TokenErr (Option String)
  | none => .ok none
  | some s =>
    match expandString p s with
    | .error e => .error e
    | .ok v => .ok (some v)

/-- Modelled from the spec: the audit line emitted for a live campaign with
no active iteration. -/
def skipMessage (id : String) : String :=
  "Skipping campaign ID " ++ id ++ " as no active iteration was found."

/-- The reason recorded for a fired rule. -/
def mkReason (r : IterationRule) : Reason :=
  ⟨r.type, r.name, toString r.priority, r.description, true⟩

/-- Modelled from the spec: every rule of every fired priority group of one
type, recorded as a reason with the matcher marked as matched. -/
def reasonsOfFiredGroups (m : IterationRule → Bool) (t : RuleType)
    (app : List IterationRule) : List Reason :=
  (((prioritiesOfType t app).filter
      (fun pr => groupFires m (rulesOfTypeAndPriority t pr app))).map
    (fun pr => (rulesOfTypeAndPriority t pr app).map mkReason)).flatten

/-- Modelled from the spec: the reasons recorded for one cohort work item —
the fired filter groups when the verdict is NotEligible, the fired
suppression groups when it is NotActionable, none when Actionable. -/
def cohortReasons (m : IterationRule → Bool) (rules : List IterationRule)
    (c : IterationCohort) : List Reason :=
  match evalCohortStatus m rules c.cohort_label with
  | .notEligible =>
    reasonsOfFiredGroups m RuleType.filter (rulesForCohort c.cohort_label rules)
  | .notActionable =>
    reasonsOfFiredGroups m RuleType.suppression (rulesForCohort c.cohort_label rules)
  | .actionable => []

/-- Modelled from the spec: the evaluation of one cohort work item — verdict
by the rule evaluator, reasons from the fired groups of the deciding type,
and the positive description for Actionable/NotActionable or the negative
description for NotEligible, token-expanded. -/
def cohortRow (p : PersonData) (m : IterationRule → Bool) (rules : List IterationRule)
    (c : IterationCohort) : Except TokenErr CohortGroupResult :=
  match expandOptionString p
      (if evalCohortStatus m rules c.cohort_label == Status.notEligible then
        c.negative_description
      else c.positive_description) with
  | .error e => .error e
  | .ok d =>
    .ok ⟨c.cohort_group, evalCohortStatus m rules c.cohort_label,
         cohortReasons m rules c, d.getD "", []⟩

/-- Priority comparison of iteration cohorts: smaller priority wins, an
absent priority loses to any present one. -/
def cohortPrioLE (a b : IterationCohort) : Bool :=
  match a.priority, b.priority with
  | none, none => true
  | none, some _ => false
  | some _, none => true
  | some x, some y => decide (x ≤ y)

/-- The highest-priority cohort of a list (first wins ties). -/
def firstMinCohort (l : List IterationCohort) : Option IterationCohort :=
  l.foldl
    (fun acc c =>
      match acc with
      | none => some c
      | some b => if cohortPrioLE b c then some b else some c)
    none

/-- Modelled from the spec: the synthetic reason attached when the working
set is empty. -/
def baseEligibilityReason : Reason :=
  ⟨RuleType.filter, "BASE_ELIGIBILITY", "0",
   "Person is not a member of any iteration cohort", true⟩

/-- Modelled from the spec: the NotEligible row built for one cohort group
when the working set is empty — the negative description of the group's
highest-priority cohort, token-expanded. -/
def baseIneligibleRow (p : PersonData) (cohorts : List IterationCohort) (g : String) :
    Except TokenErr CohortGroupResult :=
  match firstMinCohort (cohorts.filter (fun c => c.cohort_group == g)) with
  | none => .ok ⟨g, Status.notEligible, [baseEligibilityReason], "", []⟩
  | some c =>
    match expandOptionString p c.negative_description with
    | .error e => .error e
    | .ok d => .ok ⟨g, Status.notEligible, [baseEligibilityReason], d.getD "", []⟩

/-- Modelled from the spec: the status text for the final status, falling
back to the defaults of section 6 when the iteration has none or the field
is empty or absent. -/
def statusTextFor (stOpt : Option StatusTextConfig) (s : Status) (name : String) : String :=
  let chosen : Option String :=
    match stOpt with
    | none => none
    | some st =>
      match s with
      | .notEligible => st.not_eligible
      | .notActionable => st.not_actionable
      | .actionable => st.actionable
  match chosen with
  | some t => if t == "" then defaultStatusText s name else t
  | none => defaultStatusText s name

/-- Modelled from the spec: the Action Selector restricted to the default
routing for the final status (per-rule routing overrides are outside the
claims verified here): resolve the status's default routing key through the
`ActionsMapper` — a missing key emits no actions — and token-expand the
action description and URL label. -/
def actionsForStatus (p : PersonData) (it : Iteration) (s : Status) :
    Except TokenErr (List SuggestedAction) :=
  let key :=
    match s with
    | .actionable => it.default_comms_routing
    | .notEligible => it.default_not_eligible_routing
    | .notActionable => it.default_not_actionable_routing
  match it.actions_mapper.get key with
  | none => .ok []
  | some a =>
    match expandOptionString p a.action_description with
    | .error e => .error e
    | .ok d =>
      match expandOptionString p a.url_label with
      | .error e => .error e
      | .ok lbl => .ok [⟨a.action_type, a.action_code, d, a.url_link, lbl⟩]

/-- Modelled from the spec: evaluation of one campaign's current iteration
for one person — build the working set, evaluate each cohort (or the base
ineligible rows when the working set is empty), aggregate the statuses,
expand the status text, select the actions, and build the condition. -/
def evalIteration (p : PersonData) (m : IterationRule → Bool) (name : String)
    (it : Iteration) : Except TokenErr Condition :=
  let ws := workingSet p.cohorts it.iteration_cohorts
  let rowsE :=
    if ws.isEmpty then
      mapExcept (baseIneligibleRow p it.iteration_cohorts)
        (dedupKeepFirst (it.iteration_cohorts.map (fun c => c.cohort_group)))
    else mapExcept (cohortRow p m it.iteration_rules) ws
  match rowsE with
  | .error e => .error e
  | .ok rows =>
    let status :=
      if ws.isEmpty then Status.notEligible
      else campaignStatusOfVerdicts (rows.map (fun r => r.status))
    match expandString p (statusTextFor it.status_text status name) with
    | .error e => .error e
    | .ok stext =>
      match actionsForStatus p it status with
      | .error e => .error e
      | .ok acts => .ok (build_condition ⟨status, some stext, rows, acts⟩ name)

/-- Modelled from the spec: per-campaign step of the facade — a campaign
that is not live contributes nothing; a live campaign with no active
iteration contributes no condition and one skip audit line; otherwise its
current iteration is evaluated. -/
def processCampaign (today : Nat) (p : PersonData) (m : IterationRule → Bool)
    (c : CampaignConfig) : Except TokenErr (List Condition × List String) :=
  if c.campaign_live today then
    match c.current_iteration today with
    | none => .ok ([], [skipMessage c.id])
    | some it =>
      match evalIteration p m c.target it with
      | .error e => .error e
      | .ok cond => .ok ([cond], [])
  else .ok ([], [])

/-- Modelled from the spec: the facade `get_eligibility_status`, with the
filter parameters fixed at include-actions and all conditions/categories as
the tests exercise them.  The result pairs the conditions with the audit
lines; a token error is fail-closed with no partial response. -/
def get_eligibility_status (today : Nat) (p : PersonData) (m : IterationRule → Bool) :
    List CampaignConfig → Except TokenErr (List Condition × List String)
  | [] => .ok ([], [])
  | c :: rest =>
    match processCampaign today p m c with
    | .error e => .error e
    | .ok (cs1, a1) =>
      match get_eligibility_status today p m rest with
      | .error e => .error e
      | .ok (cs2, a2) => .ok (cs1 ++ cs2, a1 ++ a2)

/-- The facade run on raw, not yet validated campaign configurations: the
configurations are parsed first and a `ConfigInvalid` failure (the outer
error) prevents any evaluation. -/
def get_eligibility_status_raw (today : Nat) (p : PersonData) (m : IterationRule → Bool)
    (raws : List RawCampaignConfig) :
    Except String (Except TokenErr (List Condition × List String)) :=
  match mapExcept parseCampaignConfig raws with
  | .error e => .error e
  | .ok cs => .ok (get_eligibility_status today p m cs)

/-- The list of per-cohort verdicts over the working set of an iteration. -/
def cohortVerdicts (m : IterationRule → Bool) (pc : List String) (it : Iteration) :
    List Status :=
  (workingSet pc it.iteration_cohorts).map
    (fun c => evalCohortStatus m it.iteration_rules c.cohort_label)

/-! Concrete fixtures used by the witnesses, mirroring the scenarios of
`test_eligibility_calculator.py`. -/

/-- A matcher under which no rule matches. -/
def mFalse : IterationRule → Bool := fun _ => false

/-- A matcher under which every rule matches. -/
def mTrue : IterationRule → Bool := fun _ => true

/-- Fallback condition used only to extract evaluation results. -/
def emptyCondition : Condition :=
  ⟨"", Status.notEligible, "", [], [], []⟩

/-- Person fixture: a date of birth, a GP practice attribute present without
a value, and an RSV target row with a last successful date. -/
def pTok : PersonData :=
  { cohorts := ["cohort_1"],
    person_attrs := [("DATE_OF_BIRTH", some "20250510"), ("GP_PRACTICE", none)],
    target_attrs := [("RSV", [("LAST_SUCCESSFUL_DATE", some "20240103")])] }

/-- Person fixture with no cohorts and no attributes. -/
def pEmpty : PersonData :=
  { cohorts := [], person_attrs := [], target_attrs := [] }

/-- Iteration fixture with the given date and no cohorts or rules. -/
def mkPlainIteration (d : Nat) (n : String) : Iteration :=
  { id := n, iteration_date := d, default_comms_routing := "dc",
    default_not_eligible_routing := "dne", default_not_actionable_routing := "dna",
    iteration_cohorts := [], iteration_rules := [], actions_mapper := ⟨[]⟩,
    status_text := none }

/-- A suppression rule fixture at the given priority. -/
def mkSuppressionRule (nm : String) (pr : Int) : IterationRule :=
  { type := RuleType.suppression, name := nm, description := nm, priority := pr,
    attribute_level := "PERSON", attribute_name := some "DATE_OF_BIRTH",
    cohort_label := none, operator := "Y>", comparator := "-75",
    attribute_target := none, rule_stop := false, comms_routing := none }

/-- Rules fixture for the priority-group witness: two suppression rules at
priority 5 and one at priority 10. -/
def rulesW : List IterationRule :=
  [mkSuppressionRule "age" 5, mkSuppressionRule "postcode" 5, mkSuppressionRule "other" 10]

/-- A virtual cohort fixture. -/
def vcohW : IterationCohort :=
  { cohort_label := "vc", cohort_group := "virtual cohort group",
    positive_description := some "virtual positive description",
    negative_description := some "virtual negative description",
    priority := some 1, virtual := Virtual.yes }

/-- A non-virtual cohort fixture labelled `cohort_1`. -/
def ncohW : IterationCohort :=
  { cohort_label := "cohort_1", cohort_group := "rsv_age_range",
    positive_description := some "rsv_age_range positive description",
    negative_description := some "rsv_age_range negative description",
    priority := some 2, virtual := Virtual.no }

/-- Campaign fixture for the current-iteration witness: three iterations
dated 2025-04-10, 2025-04-20 and 2025-04-30. -/
def cC4 : CampaignConfig :=
  { id := "C4", target := "RSV", start_date := 20250101, end_date := 20251231,
    iterations :=
      [mkPlainIteration 20250410 "old", mkPlainIteration 20250420 "cur",
       mkPlainIteration 20250430 "next"] }

/-- Campaign fixture whose only iteration is dated in the future. -/
def cC10 : CampaignConfig :=
  { id := "SK", target := "RSV", start_date := 20250101, end_date := 20251231,
    iterations := [mkPlainIteration 20250510 "inactive"] }

/-- Live campaign fixture producing an Actionable COVID condition. -/
def cActiveW : CampaignConfig :=
  { id := "CV", target := "COVID", start_date := 20250101, end_date := 20251231,
    iterations := [{ mkPlainIteration 20250420 "active" with iteration_cohorts := [vcohW] }] }

/-- The facade result on the active campaign alone, used by the skip
witness. -/
def restPairW : List Condition × List String :=
  (get_eligibility_status 20250425 pEmpty mFalse [cActiveW]).toOption.getD ([], [])

/-- Iteration fixture for the aggregation witness: one non-virtual cohort
and one suppression rule. -/
def itC2W : Iteration :=
  { mkPlainIteration 20250420 "cur" with
    iteration_cohorts := [ncohW], iteration_rules := [mkSuppressionRule "age" 5] }

/-- The condition the aggregation witness extracts. -/
def condC2W : Condition :=
  (evalIteration pTok mTrue "RSV" itC2W).toOption.getD emptyCondition

/-- Iteration fixture for the virtual-cohort witness: a single virtual
cohort and no rules. -/
def itC3W : Iteration :=
  { mkPlainIteration 20250420 "cur" with iteration_cohorts := [vcohW] }

/-- The condition the virtual-cohort witness extracts. -/
def condC3W : Condition :=
  (evalIteration pEmpty mFalse "RSV" itC3W).toOption.getD emptyCondition

/-- Campaign fixture whose surviving description carries a malformed token
post-fix. -/
def cC8 : CampaignConfig :=
  { id := "C8", target := "RSV", start_date := 20250101, end_date := 20251231,
    iterations :=
      [{ mkPlainIteration 20250420 "cur" with
         iteration_cohorts :=
           [{ ncohW with
              positive_description :=
                some "LAST_SUCCESSFUL_DATE: [[TARGET.RSV.LAST_SUCCESSFUL_DATE:INVALID_DATE_FORMAT(%d %B %Y)]]" }] }] }

/-- The current iteration of the malformed-token campaign. -/
def itC8 : Iteration :=
  (cC8.current_iteration 20250425).getD (mkPlainIteration 0 "none")

/-- Campaign fixture whose surviving description references an attribute
name absent from the person's target row. -/
def cC9 : CampaignConfig :=
  { id := "C9", target := "RSV", start_date := 20250101, end_date := 20251231,
    iterations :=
      [{ mkPlainIteration 20250420 "cur" with
         iteration_cohorts :=
           [{ ncohW with
              positive_description := some "LAST_SUCCESSFUL_DATE: [[TARGET.RSV.ICECREAM]]" }] }] }

/-- Campaign fixture whose surviving description references an attribute
present without a value. -/
def cC9b : CampaignConfig :=
  { id := "C9B", target := "RSV", start_date := 20250101, end_date := 20251231,
    iterations :=
      [{ mkPlainIteration 20250420 "cur" with
         iteration_cohorts :=
           [{ ncohW with
              positive_description :=
                some "Your GP practice code is [[PERSON.GP_PRACTICE]]." }] }] }

/-- The facade result on the present-without-value campaign. -/
def resC9b : List Condition × List String :=
  (get_eligibility_status 20250425 pTok mFalse [cC9b]).toOption.getD ([], [])

/-- Reason fixture: a suppression reason named `Supress Rule 1`. -/
def r1W : Reason :=
  ⟨RuleType.suppression, "Supress Rule 1", "1", "Not matching", true⟩

/-- Reason fixture: a suppression reason named `Supress Rule 2` at the same
priority as `r1W`. -/
def r2W : Reason :=
  ⟨RuleType.suppression, "Supress Rule 2", "1", "Matching", true⟩

/-- Raw campaign fixture whose start date is after its end date. -/
def rawBadDates : RawCampaignConfig :=
  { id := "BAD", target := "RSV", start_date := 20250401, end_date := 20250101,
    iterations :=
      [{ id := "i1", iteration_date := 20250101, default_comms_routing := "dc",
         default_not_eligible_routing := "dne", default_not_actionable_routing := "dna",
         iteration_cohorts := [], iteration_rules := [], actions_mapper := ⟨[]⟩,
         status_text := none }] }

/-! Theorems. -/

theorem current_iteration_none_iff (c : CampaignConfig) (today : Nat) :
    c.current_iteration today = none ↔ ∀ i ∈ c.iterations, today < i.iteration_date := by
  unfold CampaignConfig.current_iteration
  rw [List.find?_eq_none]
  constructor
  · intro h i hi
    have := h i (by simpa using hi)
    simpa using this
  · intro h i hi
    have hm : i ∈ c.iterations := by simpa using hi
    simpa using h i hm

theorem find_iterDateGE_max (t : Nat) :
    ∀ (l : List Iteration), List.Sorted iterDateGE l →
      ∀ y, l.find? (fun i => decide (i.iteration_date ≤ t)) = some y →
        ∀ z ∈ l, z.iteration_date ≤ t → z.iteration_date ≤ y.iteration_date := by
  intro l
  induction l with
  | nil => intro _ y hy; simp at hy
  | cons a l ih =>
    intro hs y hy z hz hzt
    rw [List.sorted_cons] at hs
    by_cases ha : a.iteration_date ≤ t
    · rw [List.find?_cons_of_pos _ (by simpa using ha)] at hy
      injection hy with hy
      subst hy
      rcases List.mem_cons.mp hz with rfl | hz2
      · exact le_refl _
      · exact hs.1 z hz2
    · rw [List.find?_cons_of_neg _ (by simpa using ha)] at hy
      rcases List.mem_cons.mp hz with rfl | hz2
      · exact absurd hzt ha
      · exact ih hs.2 y hy z hz2 hzt

/-- C10: when every iteration of a campaign is dated strictly after today,
`current_iteration` yields no value — its `next(...)` has no default, so the
embedded result is `none`, modelling the uncaught `StopIteration` a caller
must guard against; conversely a value is produced whenever some iteration
is not in the future. -/
theorem C10_no_past_iteration_gives_no_value (c : CampaignConfig) (today : Nat) :
    c.current_iteration today = none ↔ ∀ i ∈ c.iterations, today < i.iteration_date :=
  current_iteration_none_iff c today

theorem C10_witness : cC10.current_iteration 20250425 = none :=
  (C10_no_past_iteration_gives_no_value cC10 20250425).mpr (by decide)

/-- C4: when some iteration is dated on or before today, `current_iteration`
returns an iteration of the campaign dated on or before today whose date is
greatest among those, and the facade applies exactly that iteration's rules:
the condition a live campaign contributes is the one evaluated from the
selected iteration. -/
theorem C4_current_iteration_selects_latest_past (c : CampaignConfig) (today : Nat)
    (hex : ∃ i ∈ c.iterations, i.iteration_date ≤ today) :
    ∃ r, c.current_iteration today = some r ∧ r ∈ c.iterations ∧
      r.iteration_date ≤ today ∧
      (∀ z ∈ c.iterations, z.iteration_date ≤ today → z.iteration_date ≤ r.iteration_date) ∧
      (∀ p m cond, c.campaign_live today = true →
        evalIteration p m c.target r = .ok cond →
        processCampaign today p m c = .ok ([cond], [])) := by
  obtain ⟨i, hi, hit⟩ := hex
  have hne : c.current_iteration today ≠ none := by
    intro h0
    have := (current_iteration_none_iff c today).mp h0 i hi
    omega
  cases hr : c.current_iteration today with
  | none => exact absurd hr hne
  | some r =>
    have hr2 : (c.iterations.insertionSort iterDateGE).find?
        (fun i => decide (i.iteration_date ≤ today)) = some r := hr
    refine ⟨r, rfl, ?_, ?_, ?_, ?_⟩
    · have := List.mem_of_find?_eq_some hr2
      simpa using this
    · have := List.find?_some hr2
      simpa using this
    · intro z hz hzt
      exact find_iterDateGE_max today _ (List.sorted_insertionSort _ _) r hr2 z
        (by simpa using hz) hzt
    · intro p m cond hlive hok
      unfold processCampaign
      simp [hlive, hr, hok]

theorem C4_witness : ∃ r, cC4.current_iteration 20250425 = some r ∧
    r ∈ cC4.iterations ∧ r.iteration_date ≤ 20250425 ∧
    (∀ z ∈ cC4.iterations, z.iteration_date ≤ 20250425 →
      z.iteration_date ≤ r.iteration_date) ∧
    (∀ p m cond, cC4.campaign_live 20250425 = true →
      evalIteration p m cC4.target r = .ok cond →
      processCampaign 20250425 p m cC4 = .ok ([cond], [])) :=
  C4_current_iteration_selects_latest_past cC4 20250425
    ⟨mkPlainIteration 20250410 "old", by decide, by decide⟩

theorem except_error_iff_not_ok {ε β : Type} (x : Except ε β) :
    (∃ e, x = .error e) ↔ ¬ ∃ b, x = .ok b := by
  cases x <;> simp

theorem mapExcept_ok_iff {α β ε : Type} (f : α → Except ε β) :
    ∀ l : List α, (∃ bs, mapExcept f l = .ok bs) ↔ ∀ a ∈ l, ∃ b, f a = .ok b := by
  intro l
  induction l with
  | nil => simp [mapExcept]
  | cons a l ih =>
    constructor
    · rintro ⟨bs, h⟩
      cases hfa : f a with
      | error e => simp [mapExcept, hfa] at h
      | ok b =>
        cases hml : mapExcept f l with
        | error e => simp [mapExcept, hfa, hml] at h
        | ok bs2 =>
          intro a2 ha2
          rcases List.mem_cons.mp ha2 with rfl | h2
          · exact ⟨b, hfa⟩
          · exact ih.mp ⟨bs2, hml⟩ a2 h2
    · intro h
      obtain ⟨b, hb⟩ := h a (List.mem_cons_self a l)
      obtain ⟨bs, hbs⟩ := ih.mpr (fun x hx => h x (List.mem_cons_of_mem a hx))
      exact ⟨b :: bs, by simp [mapExcept, hb, hbs]⟩

theorem mapExcept_parseIteration_dates :
    ∀ (l : List RawIteration) (its : List Iteration),
      mapExcept parseIteration l = .ok its →
      its.map (fun i => i.iteration_date) = l.map (fun i => i.iteration_date) := by
  intro l
  induction l with
  | nil =>
    intro its h
    simp [mapExcept] at h
    simp [h.symm]
  | cons a l ih =>
    intro its h
    cases hfa : parseIteration a with
    | error e => simp [mapExcept, hfa] at h
    | ok b =>
      cases hml : mapExcept parseIteration l with
      | error e => simp [mapExcept, hfa, hml] at h
      | ok bs =>
        simp [mapExcept, hfa, hml] at h
        have hdate : b.iteration_date = a.iteration_date := by
          unfold parseIteration at hfa
          cases hmc : mapExcept parseIterationCohort a.iteration_cohorts with
          | error e => rw [hmc] at hfa; cases hfa
          | ok cs =>
            rw [hmc] at hfa
            injection hfa with hfa
            rw [← hfa]
        rw [← h]
        simp [hdate, ih bs hml]

theorem parseIterationCohort_ok_iff (co : RawIterationCohort) :
    (∃ b, parseIterationCohort co = .ok b) ↔
      ∃ v, normalize_virtual co.virtual = .ok v := by
  unfold parseIterationCohort
  cases normalize_virtual co.virtual <;> simp

theorem parseIteration_ok_iff (it : RawIteration) :
    (∃ b, parseIteration it = .ok b) ↔
      ∀ co ∈ it.iteration_cohorts, ∃ v, normalize_virtual co.virtual = .ok v := by
  have h1 : (∃ b, parseIteration it = .ok b) ↔
      ∃ cs, mapExcept parseIterationCohort it.iteration_cohorts = .ok cs := by
    unfold parseIteration
    cases mapExcept parseIterationCohort it.iteration_cohorts <;> simp
  rw [h1, mapExcept_ok_iff]
  constructor
  · intro h co hco
    exact (parseIterationCohort_ok_iff co).mp (h co hco)
  · intro h co hco
    exact (parseIterationCohort_ok_iff co).mpr (h co hco)

/-- C5: parsing a campaign configuration fails exactly when a structural
check is violated — start date after end date, a duplicated iteration date,
an empty iteration list, or a `Virtual` value that trimmed and upper-cased
is neither `Y` nor `N`; a missing `Virtual` value defaults to `N`, and a
rejected configuration is never evaluated. -/
theorem C5_parse_fails_iff_structural_violation (r : RawCampaignConfig) :
    ((∃ e, parseCampaignConfig r = .error e) ↔
      (r.end_date < r.start_date ∨ r.iterations = [] ∨
       hasDuplicateDates (r.iterations.map (fun i => i.iteration_date)) = true ∨
       ∃ it ∈ r.iterations, ∃ co ∈ it.iteration_cohorts,
         ∃ e, normalize_virtual co.virtual = .error e)) ∧
    normalize_virtual none = .ok Virtual.no ∧
    (∀ s, (∃ e, normalize_virtual (some s) = .error e) ↔
      (upperStr (stripStr s) ≠ "Y" ∧ upperStr (stripStr s) ≠ "N")) ∧
    (∀ today p m (raws : List RawCampaignConfig) r2, r2 ∈ raws →
      (∃ e, parseCampaignConfig r2 = .error e) →
      ∃ e2, get_eligibility_status_raw today p m raws = .error e2) := by
  refine ⟨?_, rfl, ?_, ?_⟩
  · cases hml : mapExcept parseIteration r.iterations with
    | error e0 =>
      have hbad : ∃ it ∈ r.iterations, ∃ co ∈ it.iteration_cohorts,
          ∃ e, normalize_virtual co.virtual = .error e := by
        have hno : ¬ ∀ a ∈ r.iterations, ∃ b, parseIteration a = .ok b := by
          intro hall
          obtain ⟨bs, hbs⟩ := (mapExcept_ok_iff _ _).mpr hall
          rw [hml] at hbs
          cases hbs
        push_neg at hno
        obtain ⟨it, hit, hne⟩ := hno
        have : ¬ ∀ co ∈ it.iteration_cohorts, ∃ v, normalize_virtual co.virtual = .ok v := by
          intro hall
          obtain ⟨b, hb⟩ := (parseIteration_ok_iff it).mpr hall
          exact hne b hb
        push_neg at this
        obtain ⟨co, hco, hne2⟩ := this
        refine ⟨it, hit, co, hco, ?_⟩
        rw [except_error_iff_not_ok]
        intro hex
        obtain ⟨v, hv⟩ := hex
        exact hne2 v hv
      constructor
      · intro _
        right; right; right
        exact hbad
      · intro _
        refine ⟨e0, ?_⟩
        unfold parseCampaignConfig
        rw [hml]
    | ok its =>
      have hdates := mapExcept_parseIteration_dates r.iterations its hml
      have hred : parseCampaignConfig r =
          (if its.isEmpty then Except.error "List should have at least 1 item"
           else if decide (r.end_date < r.start_date) = true then
             Except.error "start date after end date"
           else if hasDuplicateDates (its.map (fun i => i.iteration_date)) = true then
             Except.error "multiple iterations with the same iteration date"
           else
             Except.ok { id := r.id, target := r.target, start_date := r.start_date,
                         end_date := r.end_date, iterations := its }) := by
        unfold parseCampaignConfig
        rw [hml]
      have hempty : its = [] ↔ r.iterations = [] := by
        constructor
        · intro h
          rw [h] at hdates
          exact List.map_eq_nil_iff.mp hdates.symm
        · intro h
          rw [h] at hml
          simp [mapExcept] at hml
          simp [hml]
      have hnobad : ¬ ∃ it ∈ r.iterations, ∃ co ∈ it.iteration_cohorts,
          ∃ e, normalize_virtual co.virtual = .error e := by
        rintro ⟨it, hit, co, hco, e, he⟩
        have hall := (mapExcept_ok_iff parseIteration r.iterations).mp ⟨its, hml⟩
        have := (parseIteration_ok_iff it).mp (hall it hit) co hco
        obtain ⟨v, hv⟩ := this
        rw [hv] at he
        cases he
      constructor
      · rintro ⟨e, he⟩
        rw [hred] at he
        by_cases h1 : its.isEmpty = true
        · right; left
          exact hempty.mp (List.isEmpty_iff.mp h1)
        · by_cases h2 : r.end_date < r.start_date
          · left; exact h2
          · by_cases h3 : hasDuplicateDates (its.map (fun i => i.iteration_date)) = true
            · right; right; left
              rw [← hdates]
              exact h3
            · simp [h1, h2, h3] at he
      · intro hdisj
        rcases hdisj with h1 | h1 | h1 | h1
        · rw [hred]
          by_cases h0 : its.isEmpty = true
          · exact ⟨"List should have at least 1 item", by simp [h0]⟩
          · exact ⟨"start date after end date", by simp [h0, h1]⟩
        · have h0 : its.isEmpty = true := by
            simp [List.isEmpty_iff, hempty.mpr h1]
          exact ⟨"List should have at least 1 item", by rw [hred]; simp [h0]⟩
        · rw [hred]
          by_cases h0 : its.isEmpty = true
          · exact ⟨"List should have at least 1 item", by simp [h0]⟩
          · by_cases h2 : r.end_date < r.start_date
            · exact ⟨"start date after end date", by simp [h0, h2]⟩
            · have h3 : hasDuplicateDates (its.map (fun i => i.iteration_date)) = true := by
                rw [hdates]; exact h1
              exact ⟨"multiple iterations with the same iteration date",
                by simp [h0, h2, h3]⟩
        · exact absurd h1 hnobad
  · intro s
    rw [except_error_iff_not_ok]
    unfold normalize_virtual
    by_cases h1 : upperStr (stripStr s) = "Y"
    · simp [h1]
    · by_cases h2 : upperStr (stripStr s) = "N"
      · simp [h1, h2]
      · simp [h1, h2]
  · intro today p m raws r2 hr2 herr
    rw [except_error_iff_not_ok] at herr
    have hno : ¬ ∃ bs, mapExcept parseCampaignConfig raws = .ok bs := by
      intro hok
      exact herr ((mapExcept_ok_iff _ _).mp hok r2 hr2)
    cases hml : mapExcept parseCampaignConfig raws with
    | error e2 =>
      exact ⟨e2, by unfold get_eligibility_status_raw; rw [hml]⟩
    | ok bs => exact absurd ⟨bs, hml⟩ hno

theorem C5_witness : ∃ e, parseCampaignConfig rawBadDates = .error e :=
  (C5_parse_fails_iff_structural_violation rawBadDates).1.mpr (Or.inl (by decide))

theorem ruleApplies_iff (label : String) (r : IterationRule) :
    ruleAppliesToCohort label r = true ↔
      (r.cohort_label = none ∨ r.cohort_label = some label) := by
  cases h : r.cohort_label <;> simp [ruleAppliesToCohort, h]

theorem groupFires_iff (m : IterationRule → Bool) (g : List IterationRule) :
    groupFires m g = true ↔ (g ≠ [] ∧ ∀ r ∈ g, m r = true) := by
  simp [groupFires, List.all_eq_true, List.isEmpty_iff]

theorem typeFires_iff (m : IterationRule → Bool) (t : RuleType)
    (rules : List IterationRule) :
    typeFires m t rules = true ↔
      ∃ p, groupFires m (rulesOfTypeAndPriority t p rules) = true := by
  unfold typeFires
  rw [List.any_eq_true]
  constructor
  · rintro ⟨p, _, hp⟩
    exact ⟨p, hp⟩
  · rintro ⟨p, hp⟩
    refine ⟨p, ?_, hp⟩
    have hne := ((groupFires_iff m _).mp hp).1
    obtain ⟨r, hr⟩ := List.exists_mem_of_ne_nil _ hne
    unfold rulesOfTypeAndPriority at hr
    rw [List.mem_filter] at hr
    obtain ⟨hrm, hcond⟩ := hr
    simp only [Bool.and_eq_true, beq_iff_eq] at hcond
    unfold prioritiesOfType
    rw [List.mem_dedup, List.mem_map]
    exact ⟨r, List.mem_filter.mpr ⟨hrm, by simp [hcond.1]⟩, hcond.2⟩

theorem evalCohortStatus_notEligible_iff (m : IterationRule → Bool)
    (rules : List IterationRule) (label : String) :
    evalCohortStatus m rules label = Status.notEligible ↔
      typeFires m RuleType.filter (rulesForCohort label rules) = true := by
  unfold evalCohortStatus
  by_cases h1 : typeFires m RuleType.filter (rulesForCohort label rules) = true
  · simp [h1]
  · by_cases h2 : typeFires m RuleType.suppression (rulesForCohort label rules) = true <;>
      simp [h1, h2]

theorem evalCohortStatus_notActionable_iff (m : IterationRule → Bool)
    (rules : List IterationRule) (label : String) :
    evalCohortStatus m rules label = Status.notActionable ↔
      (typeFires m RuleType.filter (rulesForCohort label rules) = false ∧
       typeFires m RuleType.suppression (rulesForCohort label rules) = true) := by
  unfold evalCohortStatus
  by_cases h1 : typeFires m RuleType.filter (rulesForCohort label rules) = true
  · simp [h1]
  · by_cases h2 : typeFires m RuleType.suppression (rulesForCohort label rules) = true <;>
      simp [h1, h2]

/-- C1: the rules applying to a cohort work item are the rules with no
cohort label plus those labelled with this cohort's label; a priority group
of one type fires iff it is non-empty and every rule in it matches; any one
filter group firing makes the cohort NotEligible, and — only when no filter
group fires — any one suppression group firing makes it NotActionable. -/
theorem C1_priority_group_conjunction (m : IterationRule → Bool)
    (rules : List IterationRule) (label : String) :
    (∀ r, r ∈ rulesForCohort label rules ↔
       (r ∈ rules ∧ (r.cohort_label = none ∨ r.cohort_label = some label))) ∧
    (∀ t p, groupFires m (rulesOfTypeAndPriority t p (rulesForCohort label rules)) = true ↔
       (rulesOfTypeAndPriority t p (rulesForCohort label rules) ≠ [] ∧
        ∀ r ∈ rulesOfTypeAndPriority t p (rulesForCohort label rules), m r = true)) ∧
    (evalCohortStatus m rules label = Status.notEligible ↔
       ∃ p, groupFires m
         (rulesOfTypeAndPriority RuleType.filter p (rulesForCohort label rules)) = true) ∧
    (evalCohortStatus m rules label = Status.notActionable ↔
       ((¬ ∃ p, groupFires m
           (rulesOfTypeAndPriority RuleType.filter p (rulesForCohort label rules)) = true) ∧
        ∃ p, groupFires m
          (rulesOfTypeAndPriority RuleType.suppression p
            (rulesForCohort label rules)) = true)) := by
  refine ⟨?_, ?_, ?_, ?_⟩
  · intro r
    unfold rulesForCohort
    rw [List.mem_filter, ruleApplies_iff]
  · intro t p
    exact groupFires_iff m _
  · rw [evalCohortStatus_notEligible_iff, typeFires_iff]
  · rw [evalCohortStatus_notActionable_iff]
    constructor
    · rintro ⟨h1, h2⟩
      refine ⟨?_, (typeFires_iff m _ _).mp h2⟩
      intro hex
      have h3 := (typeFires_iff m _ _).mpr hex
      simp [h3] at h1
    · rintro ⟨h1, h2⟩
      refine ⟨?_, (typeFires_iff m _ _).mpr h2⟩
      cases hval : typeFires m RuleType.filter (rulesForCohort label rules) with
      | false => rfl
      | true => exact absurd ((typeFires_iff m _ _).mp hval) h1

theorem contains_eq_false_iff (vs : List Status) (a : Status) :
    vs.contains a = false ↔ a ∉ vs := by
  constructor
  · intro h hm
    cases (List.elem_iff.mpr hm).symm.trans h
  · intro h
    cases hc : vs.contains a
    · rfl
    · exact absurd (List.elem_iff.mp hc) h

theorem campaignStatus_actionable_iff (vs : List Status) :
    campaignStatusOfVerdicts vs = Status.actionable ↔
      vs.contains Status.actionable = true := by
  rw [List.elem_iff]
  unfold campaignStatusOfVerdicts
  by_cases h1 : Status.actionable ∈ vs
  · rw [if_pos (List.elem_iff.mpr h1)]
    simp [h1]
  · rw [if_neg (fun hc => h1 (List.elem_iff.mp hc))]
    by_cases h2 : Status.notActionable ∈ vs
    · rw [if_pos (List.elem_iff.mpr h2)]
      simp [h1]
    · rw [if_neg (fun hc => h2 (List.elem_iff.mp hc))]
      simp [h1]

theorem campaignStatus_notActionable_iff (vs : List Status) :
    campaignStatusOfVerdicts vs = Status.notActionable ↔
      (vs.contains Status.actionable = false ∧
       vs.contains Status.notActionable = true) := by
  rw [List.elem_iff, contains_eq_false_iff]
  unfold campaignStatusOfVerdicts
  by_cases h1 : Status.actionable ∈ vs
  · rw [if_pos (List.elem_iff.mpr h1)]
    simp [h1]
  · rw [if_neg (fun hc => h1 (List.elem_iff.mp hc))]
    by_cases h2 : Status.notActionable ∈ vs
    · rw [if_pos (List.elem_iff.mpr h2)]
      simp [h1, h2]
    · rw [if_neg (fun hc => h2 (List.elem_iff.mp hc))]
      simp [h2]

theorem campaignStatus_notEligible_iff (vs : List Status) :
    campaignStatusOfVerdicts vs = Status.notEligible ↔
      (vs.contains Status.actionable = false ∧
       vs.contains Status.notActionable = false) := by
  rw [contains_eq_false_iff, contains_eq_false_iff]
  unfold campaignStatusOfVerdicts
  by_cases h1 : Status.actionable ∈ vs
  · rw [if_pos (List.elem_iff.mpr h1)]
    simp [h1]
  · rw [if_neg (fun hc => h1 (List.elem_iff.mp hc))]
    by_cases h2 : Status.notActionable ∈ vs
    · rw [if_pos (List.elem_iff.mpr h2)]
      simp [h1, h2]
    · rw [if_neg (fun hc => h2 (List.elem_iff.mp hc))]
      simp [h1, h2]

theorem campaignStatus_cons (v : Status) (vs : List Status) :
    campaignStatusOfVerdicts (v :: vs) =
      maxStatus v (campaignStatusOfVerdicts vs) := by
  cases v <;>
    by_cases h1 : Status.actionable ∈ vs <;>
      by_cases h2 : Status.notActionable ∈ vs <;>
        simp [campaignStatusOfVerdicts, maxStatus, Status.rank, List.elem_iff,
          List.mem_cons, h1, h2]

theorem campaignStatus_eq_foldr (vs : List Status) :
    campaignStatusOfVerdicts vs = vs.foldr maxStatus Status.notEligible := by
  induction vs with
  | nil => rfl
  | cons v vs ih =>
    rw [List.foldr_cons, ← ih, campaignStatus_cons]

theorem mapExcept_cohortRow_statuses (p : PersonData) (m : IterationRule → Bool)
    (rules : List IterationRule) :
    ∀ (l : List IterationCohort) (rows : List CohortGroupResult),
      mapExcept (cohortRow p m rules) l = .ok rows →
      rows.map (fun r => r.status) =
        l.map (fun c => evalCohortStatus m rules c.cohort_label) := by
  intro l
  induction l with
  | nil =>
    intro rows h
    simp [mapExcept] at h
    simp [h]
  | cons c l ih =>
    intro rows h
    cases hfa : cohortRow p m rules c with
    | error e => simp [mapExcept, hfa] at h
    | ok row =>
      cases hml : mapExcept (cohortRow p m rules) l with
      | error e => simp [mapExcept, hfa, hml] at h
      | ok rest =>
        simp [mapExcept, hfa, hml] at h
        have hst : row.status = evalCohortStatus m rules c.cohort_label := by
          unfold cohortRow at hfa
          cases hex : expandOptionString p
              (if evalCohortStatus m rules c.cohort_label == Status.notEligible then
                c.negative_description
              else c.positive_description) with
          | error e => rw [hex] at hfa; cases hfa
          | ok d =>
            rw [hex] at hfa
            injection hfa with hfa
            rw [← hfa]
        rw [← h]
        simp [hst, ih rest hml]

theorem iterationStatus_eq_campaignStatus (m : IterationRule → Bool)
    (pc : List String) (it : Iteration) :
    iterationStatus m pc it = campaignStatusOfVerdicts (cohortVerdicts m pc it) := by
  unfold iterationStatus cohortVerdicts
  by_cases hws : (workingSet pc it.iteration_cohorts).isEmpty = true
  · rw [List.isEmpty_iff] at hws
    simp [hws, campaignStatusOfVerdicts]
  · simp [hws]

theorem evalIteration_ok_status (p : PersonData) (m : IterationRule → Bool)
    (name : String) (it : Iteration) (cond : Condition)
    (h : evalIteration p m name it = .ok cond) :
    cond.status = iterationStatus m p.cohorts it := by
  unfold evalIteration at h
  unfold iterationStatus
  by_cases hws : (workingSet p.cohorts it.iteration_cohorts).isEmpty = true
  · simp only [hws, if_true] at h ⊢
    cases hrows : mapExcept (baseIneligibleRow p it.iteration_cohorts)
        (dedupKeepFirst (it.iteration_cohorts.map (fun c => c.cohort_group))) with
    | error e => simp only [hrows] at h; cases h
    | ok rows =>
      simp only [hrows] at h
      cases hst : expandString p (statusTextFor it.status_text Status.notEligible name) with
      | error e => simp only [hst] at h; cases h
      | ok stext =>
        simp only [hst] at h
        cases hact : actionsForStatus p it Status.notEligible with
        | error e => simp only [hact] at h; cases h
        | ok acts =>
          simp only [hact] at h
          injection h with h
          rw [← h]
          rfl
  · simp only [hws, if_false, Bool.false_eq_true] at h ⊢
    cases hrows : mapExcept (cohortRow p m it.iteration_rules)
        (workingSet p.cohorts it.iteration_cohorts) with
    | error e => simp only [hrows] at h; cases h
    | ok rows =>
      simp only [hrows] at h
      have hmap := mapExcept_cohortRow_statuses p m it.iteration_rules _ rows hrows
      cases hst : expandString p (statusTextFor it.status_text
          (campaignStatusOfVerdicts (rows.map (fun r => r.status))) name) with
      | error e => simp only [hst] at h; cases h
      | ok stext =>
        simp only [hst] at h
        cases hact : actionsForStatus p it
            (campaignStatusOfVerdicts (rows.map (fun r => r.status))) with
        | error e => simp only [hact] at h; cases h
        | ok acts =>
          simp only [hact] at h
          injection h with h
          rw [← h, ← hmap]
          rfl

/-- C2: the status of the condition a campaign's iteration evaluates to is
the maximum of the per-cohort verdicts over the working set under the order
NotEligible < NotActionable < Actionable: any Actionable verdict makes it
Actionable, else any NotActionable verdict makes it NotActionable, else it
is NotEligible. -/
theorem C2_campaign_status_is_max (p : PersonData) (m : IterationRule → Bool)
    (name : String) (it : Iteration) (cond : Condition)
    (h : evalIteration p m name it = .ok cond) :
    cond.status = (cohortVerdicts m p.cohorts it).foldr maxStatus Status.notEligible ∧
    ((cohortVerdicts m p.cohorts it).contains Status.actionable = true →
      cond.status = Status.actionable) ∧
    ((cohortVerdicts m p.cohorts it).contains Status.actionable = false →
      (cohortVerdicts m p.cohorts it).contains Status.notActionable = true →
      cond.status = Status.notActionable) ∧
    ((cohortVerdicts m p.cohorts it).contains Status.actionable = false →
      (cohortVerdicts m p.cohorts it).contains Status.notActionable = false →
      cond.status = Status.notEligible) := by
  have hs : cond.status = campaignStatusOfVerdicts (cohortVerdicts m p.cohorts it) := by
    rw [evalIteration_ok_status p m name it cond h, iterationStatus_eq_campaignStatus]
  refine ⟨?_, ?_, ?_, ?_⟩
  · rw [hs, campaignStatus_eq_foldr]
  · intro h1
    rw [hs, campaignStatus_actionable_iff]
    exact h1
  · intro h1 h2
    rw [hs, campaignStatus_notActionable_iff]
    exact ⟨h1, h2⟩
  · intro h1 h2
    rw [hs, campaignStatus_notEligible_iff]
    exact ⟨h1, h2⟩

theorem C2_witness :
    condC2W.status =
      (cohortVerdicts mTrue pTok.cohorts itC2W).foldr maxStatus Status.notEligible ∧
    ((cohortVerdicts mTrue pTok.cohorts itC2W).contains Status.actionable = true →
      condC2W.status = Status.actionable) ∧
    ((cohortVerdicts mTrue pTok.cohorts itC2W).contains Status.actionable = false →
      (cohortVerdicts mTrue pTok.cohorts itC2W).contains Status.notActionable = true →
      condC2W.status = Status.notActionable) ∧
    ((cohortVerdicts mTrue pTok.cohorts itC2W).contains Status.actionable = false →
      (cohortVerdicts mTrue pTok.cohorts itC2W).contains Status.notActionable = false →
      condC2W.status = Status.notEligible) :=
  C2_campaign_status_is_max pTok mTrue "RSV" itC2W condC2W (by decide)

/-- C3: a virtual iteration cohort is in the working set regardless of the
person's cohort set, and a non-virtual one is in it exactly when its label
is one of the person's cohorts; in particular a person with no cohorts and a
single virtual cohort whose rules do not fire gets an Actionable condition,
while with only non-virtual cohorts they get NotEligible. -/
theorem C3_virtual_cohorts_always_present (pc : List String)
    (cohorts : List IterationCohort) :
    (∀ c ∈ cohorts, c.is_virtual_cohort = true → c ∈ workingSet pc cohorts) ∧
    (∀ c, c ∈ workingSet pc cohorts → c ∈ cohorts) ∧
    (∀ c ∈ cohorts, c.is_virtual_cohort = false →
       (c ∈ workingSet pc cohorts ↔ pc.contains c.cohort_label = true)) ∧
    (∀ (pa : List (String × Option String))
       (ta : List (String × List (String × Option String)))
       (m : IterationRule → Bool) (name : String) (it : Iteration)
       (v : IterationCohort) (cond : Condition),
       it.iteration_cohorts = [v] → v.is_virtual_cohort = true →
       evalCohortStatus m it.iteration_rules v.cohort_label = Status.actionable →
       evalIteration ⟨[], pa, ta⟩ m name it = .ok cond →
       cond.status = Status.actionable) ∧
    (∀ (pa : List (String × Option String))
       (ta : List (String × List (String × Option String)))
       (m : IterationRule → Bool) (name : String) (it : Iteration) (cond : Condition),
       (∀ c ∈ it.iteration_cohorts, c.is_virtual_cohort = false) →
       evalIteration ⟨[], pa, ta⟩ m name it = .ok cond →
       cond.status = Status.notEligible) := by
  refine ⟨?_, ?_, ?_, ?_, ?_⟩
  · intro c hc hv
    unfold workingSet
    rw [List.mem_filter]
    exact ⟨hc, by simp [hv]⟩
  · intro c hc
    unfold workingSet at hc
    exact (List.mem_filter.mp hc).1
  · intro c hc hv
    unfold workingSet
    rw [List.mem_filter]
    constructor
    · intro h
      have := h.2
      rw [hv] at this
      simpa using this
    · intro h
      exact ⟨hc, by simpa [hv] using h⟩
  · intro pa ta m name it v cond hcoh hv hst hok
    have hws : workingSet ([] : List String) it.iteration_cohorts = [v] := by
      rw [hcoh]
      unfold workingSet
      simp [List.filter, hv]
    have h1 := evalIteration_ok_status ⟨[], pa, ta⟩ m name it cond hok
    rw [h1]
    unfold iterationStatus
    have hpc : (PersonData.mk [] pa ta).cohorts = ([] : List String) := rfl
    rw [hpc, hws]
    simp [campaignStatusOfVerdicts, hst]
  · intro pa ta m name it cond hall hok
    have hws : workingSet ([] : List String) it.iteration_cohorts = [] := by
      unfold workingSet
      rw [List.filter_eq_nil_iff]
      intro c hc
      simp [hall c hc]
    have h1 := evalIteration_ok_status ⟨[], pa, ta⟩ m name it cond hok
    rw [h1]
    unfold iterationStatus
    have hpc : (PersonData.mk [] pa ta).cohorts = ([] : List String) := rfl
    rw [hpc, hws]
    rfl

theorem C3_witness : condC3W.status = Status.actionable :=
  (C3_virtual_cohorts_always_present [] [vcohW]).2.2.2.1 [] [] mFalse "RSV" itC3W
    vcohW condC3W (by decide) (by decide) (by decide) (by decide)

theorem processCampaign_audit (today : Nat) (p : PersonData) (m : IterationRule → Bool)
    (c : CampaignConfig) (res : List Condition × List String)
    (h : processCampaign today p m c = .ok res) :
    res.2 = [] ∨ res.2 = [skipMessage c.id] := by
  unfold processCampaign at h
  by_cases hlive : c.campaign_live today = true
  · simp only [hlive, if_true] at h
    cases hit : c.current_iteration today with
    | none =>
      simp only [hit] at h
      injection h with h
      rw [← h]
      right
      rfl
    | some it =>
      simp only [hit] at h
      cases hev : evalIteration p m c.target it with
      | error e => simp only [hev] at h; cases h
      | ok cond =>
        simp only [hev] at h
        injection h with h
        rw [← h]
        left
        rfl
  · simp only [hlive, if_false, Bool.false_eq_true] at h
    injection h with h
    rw [← h]
    left
    rfl

theorem facade_audit_lines (today : Nat) (p : PersonData) (m : IterationRule → Bool) :
    ∀ (l : List CampaignConfig) (cs : List Condition) (au : List String),
      get_eligibility_status today p m l = .ok (cs, au) →
      ∀ s ∈ au, ∃ c ∈ l, s = skipMessage c.id := by
  intro l
  induction l with
  | nil =>
    intro cs au h s hs
    unfold get_eligibility_status at h
    injection h with h
    rw [Prod.mk.injEq] at h
    rw [← h.2] at hs
    cases hs
  | cons c rest ih =>
    intro cs au h s hs
    unfold get_eligibility_status at h
    cases hp : processCampaign today p m c with
    | error e => simp only [hp] at h; cases h
    | ok pr =>
      obtain ⟨cs1, a1⟩ := pr
      simp only [hp] at h
      cases hr : get_eligibility_status today p m rest with
      | error e => simp only [hr] at h; cases h
      | ok pr2 =>
        obtain ⟨cs2, a2⟩ := pr2
        simp only [hr] at h
        injection h with h
        rw [Prod.mk.injEq] at h
        rw [← h.2] at hs
        rcases List.mem_append.mp hs with h1 | h2
        · rcases processCampaign_audit today p m c (cs1, a1) hp with ha | ha
          · have ha2 : a1 = [] := ha
            rw [ha2] at h1
            cases h1
          · have ha2 : a1 = [skipMessage c.id] := ha
            rw [ha2] at h1
            rcases List.mem_cons.mp h1 with rfl | h0
            · exact ⟨c, List.mem_cons_self c rest, rfl⟩
            · cases h0
        · obtain ⟨c2, hc2, heq⟩ := ih cs2 a2 hr s h2
          exact ⟨c2, List.mem_cons_of_mem c hc2, heq⟩

theorem skipMessage_inj {a b : String} (h : skipMessage a = skipMessage b) : a = b := by
  unfold skipMessage at h
  have hd := congrArg String.data h
  simp at hd
  exact String.ext hd

/-- C6: a campaign live today whose iterations are all dated after today
contributes no condition, exactly one audit line saying it was skipped, and
leaves the other campaigns' conditions untouched. -/
theorem C6_skipped_campaign_audited_once (today : Nat) (p : PersonData)
    (m : IterationRule → Bool) (c : CampaignConfig) (rest : List CampaignConfig)
    (cs : List Condition) (au : List String)
    (hlive : c.campaign_live today = true)
    (hfuture : ∀ i ∈ c.iterations, today < i.iteration_date)
    (hrest : get_eligibility_status today p m rest = .ok (cs, au))
    (hids : ∀ c2 ∈ rest, c2.id ≠ c.id) :
    get_eligibility_status today p m (c :: rest) = .ok (cs, skipMessage c.id :: au) ∧
    (skipMessage c.id :: au).count (skipMessage c.id) = 1 := by
  have hnone : c.current_iteration today = none :=
    (current_iteration_none_iff c today).mpr hfuture
  have hp : processCampaign today p m c = .ok ([], [skipMessage c.id]) := by
    unfold processCampaign
    simp [hlive, hnone]
  constructor
  · unfold get_eligibility_status
    simp [hp, hrest]
  · rw [List.count_cons_self]
    have h0 : au.count (skipMessage c.id) = 0 := by
      rw [List.count_eq_zero]
      intro hmem
      obtain ⟨c2, hc2, heq⟩ := facade_audit_lines today p m rest cs au hrest _ hmem
      exact hids c2 hc2 (skipMessage_inj heq.symm)
    rw [h0]

theorem C6_witness :
    get_eligibility_status 20250425 pEmpty mFalse (cC10 :: [cActiveW]) =
      .ok (restPairW.1, skipMessage cC10.id :: restPairW.2) ∧
    (skipMessage cC10.id :: restPairW.2).count (skipMessage cC10.id) = 1 :=
  C6_skipped_campaign_audited_once 20250425 pEmpty mFalse cC10 [cActiveW]
    restPairW.1 restPairW.2 (by decide) (by decide) (by decide) (by decide)

theorem C1_witness :
    evalCohortStatus (fun r => decide (r.priority = 5)) rulesW "cohort1" =
      Status.notActionable := by
  refine (C1_priority_group_conjunction (fun r => decide (r.priority = 5)) rulesW
      "cohort1").2.2.2.mpr ⟨?_, ⟨5, by decide⟩⟩
  rintro ⟨q, hq⟩
  obtain ⟨hne, _⟩ :=
    ((C1_priority_group_conjunction (fun r => decide (r.priority = 5)) rulesW
      "cohort1").2.1 RuleType.filter q).mp hq
  apply hne
  have hfc : rulesForCohort "cohort1" rulesW = rulesW := by decide
  rw [hfc]
  simp [rulesOfTypeAndPriority, rulesW, mkSuppressionRule]

/-- C7 counterexample: two reasons of one cohort row share the rule type and
the rule priority but have different rule names, yet the built condition
keeps only the first of them — refuting that reasons differing in the rule
name remain distinct under a `(rule_type, rule_name, rule_priority)` key. -/
theorem C7_counterexample :
    (build_condition
      ⟨Status.notActionable, none,
       [⟨"COHORT_Y", Status.notActionable, [r1W, r2W], "Cohort Y Description", []⟩],
       []⟩ "RSV").suitability_rules = [r1W] ∧
    r1W.rule_type = r2W.rule_type ∧ r1W.rule_priority = r2W.rule_priority ∧
    r1W.rule_name ≠ r2W.rule_name ∧ r2W ≠ r1W := by
  refine ⟨by decide, by decide, by decide, by decide, by decide⟩

theorem dedupReasonsAux_filter (k : RuleType × String) :
    ∀ (rs : List Reason) (seen : List (RuleType × String)),
      (dedupReasonsAux seen rs).filter (fun r => reasonGroupKey r == k) =
        (if k ∈ seen then []
         else ((rs.find? (fun r => reasonGroupKey r == k)).map
           (fun r => [r])).getD []) := by
  intro rs
  induction rs with
  | nil =>
    intro seen
    by_cases h : k ∈ seen <;> simp [dedupReasonsAux, h, List.find?]
  | cons r rest ih =>
    intro seen
    unfold dedupReasonsAux
    by_cases hs : reasonGroupKey r ∈ seen
    · rw [if_pos (List.elem_iff.mpr hs), ih seen]
      by_cases hk : reasonGroupKey r = k
      · have hks : k ∈ seen := hk ▸ hs
        rw [if_pos hks, if_pos hks]
      · by_cases hsk : k ∈ seen
        · rw [if_pos hsk, if_pos hsk]
        · rw [if_neg hsk, if_neg hsk, List.find?_cons_of_neg _ (by simp [hk])]
    · rw [if_neg (fun hc => hs (List.elem_iff.mp hc))]
      by_cases hk : reasonGroupKey r = k
      · rw [List.filter_cons_of_pos (by simp [hk]), ih (reasonGroupKey r :: seen)]
        have h1 : k ∈ reasonGroupKey r :: seen := by
          rw [← hk]
          exact List.mem_cons_self _ _
        have h2 : k ∉ seen := by
          rw [← hk]
          exact hs
        rw [if_pos h1, if_neg h2, List.find?_cons_of_pos _ (by simp [hk])]
        simp
      · rw [List.filter_cons_of_neg (by simp [hk]), ih (reasonGroupKey r :: seen)]
        have h1 : (k ∈ reasonGroupKey r :: seen) ↔ k ∈ seen := by
          rw [List.mem_cons]
          constructor
          · rintro (h | h)
            · exact absurd h.symm hk
            · exact h
          · exact Or.inr
        by_cases hsk : k ∈ seen
        · rw [if_pos (h1.mpr hsk), if_pos hsk]
        · rw [if_neg (fun hm => hsk (h1.mp hm)), if_neg hsk,
            List.find?_cons_of_neg _ (by simp [hk])]

/-- C7 amended: when cohort verdicts are merged into a condition, reasons
across the surviving rows whose `(rule_type, rule_priority)` pairs are equal
collapse to the single first-encountered reason (so its description wins),
reasons differing in rule type or rule priority stay distinct, and the
deduplicated reasons are exactly the condition's suitability rules. -/
theorem C7_dedup_by_type_and_priority (ir : IterationResult) (name : String) :
    (build_condition ir name).suitability_rules =
      dedupReasons ((ir.cohort_group_results.filter
        (fun r => r.status == ir.status)).map (fun r => r.reasons)).flatten ∧
    (∀ (rs : List Reason) (k : RuleType × String),
      (dedupReasons rs).filter (fun r => reasonGroupKey r == k) =
        ((rs.find? (fun r => reasonGroupKey r == k)).map (fun r => [r])).getD []) := by
  constructor
  · rfl
  · intro rs k
    have h := dedupReasonsAux_filter k rs []
    simpa [dedupReasons] using h

/-- C8: the facade is fail-closed on a token error — a campaign whose
evaluation hits a malformed token makes the whole call fail with that error
and no partial response; the token with an `:INVALID_DATE_FORMAT(...)`
post-fix is malformed, while well-formed tokens are expanded in place and a
`:DATE(<format>)` post-fix reformats a `YYYYMMDD` value. -/
theorem C8_invalid_token_fails_closed (today : Nat) (p : PersonData)
    (m : IterationRule → Bool) (c : CampaignConfig) (it : Iteration)
    (rest : List CampaignConfig) (e : TokenErr)
    (hlive : c.campaign_live today = true)
    (hit : c.current_iteration today = some it)
    (herr : evalIteration p m c.target it = .error e) :
    get_eligibility_status today p m (c :: rest) = .error e ∧
    expandString pTok
      "LAST_SUCCESSFUL_DATE: [[TARGET.RSV.LAST_SUCCESSFUL_DATE:INVALID_DATE_FORMAT(%d %B %Y)]]" =
      .error TokenErr.invalidToken ∧
    expandString pTok "DOB: [[PERSON.DATE_OF_BIRTH]]" = .ok "DOB: 20250510" ∧
    expandString pTok
      "LAST_SUCCESSFUL_DATE: [[TARGET.RSV.LAST_SUCCESSFUL_DATE:DATE(%d %B %Y)]]" =
      .ok "LAST_SUCCESSFUL_DATE: 03 January 2024" := by
  refine ⟨?_, by decide, by decide, by decide⟩
  have hp : processCampaign today p m c = .error e := by
    unfold processCampaign
    simp [hlive, hit, herr]
  unfold get_eligibility_status
  simp [hp]

theorem C8_witness :
    get_eligibility_status 20250425 pTok mFalse (cC8 :: []) =
      .error TokenErr.invalidToken ∧
    expandString pTok
      "LAST_SUCCESSFUL_DATE: [[TARGET.RSV.LAST_SUCCESSFUL_DATE:INVALID_DATE_FORMAT(%d %B %Y)]]" =
      .error TokenErr.invalidToken ∧
    expandString pTok "DOB: [[PERSON.DATE_OF_BIRTH]]" = .ok "DOB: 20250510" ∧
    expandString pTok
      "LAST_SUCCESSFUL_DATE: [[TARGET.RSV.LAST_SUCCESSFUL_DATE:DATE(%d %B %Y)]]" =
      .ok "LAST_SUCCESSFUL_DATE: 03 January 2024" :=
  C8_invalid_token_fails_closed 20250425 pTok mFalse cC8 itC8 [] TokenErr.invalidToken
    (by decide) (by decide) (by decide)

/-- C9 counterexample: a well-formed token referencing an attribute name
absent from the person's target row is not rendered as empty text — the
expansion and the whole facade call fail instead of completing. -/
theorem C9_counterexample :
    expandString pTok "LAST_SUCCESSFUL_DATE: [[TARGET.RSV.ICECREAM]]" =
      .error TokenErr.unknownAttribute ∧
    get_eligibility_status 20250425 pTok mFalse [cC9] =
      .error TokenErr.unknownAttribute := by
  exact ⟨by decide, by decide⟩

/-- C9 amended: a well-formed token whose referenced attribute is present in
the person's data but carries no value is rendered as empty text and the
call completes; referencing an attribute name absent from the data fails
with an unknown-attribute error instead. -/
theorem C9_missing_value_renders_empty (p : PersonData) (body : List Char)
    (tk : ParsedToken) (attr k : String)
    (h1 : parseToken body = .ok tk) (h2 : tk.ref = TokenRef.person attr)
    (h3 : p.person_attrs.find? (fun kv => kv.fst == attr) = some (k, none)) :
    expandToken p body = .ok "" ∧
    expandString pTok "Your GP practice code is [[PERSON.GP_PRACTICE]]." =
      .ok "Your GP practice code is ." ∧
    get_eligibility_status 20250425 pTok mFalse [cC9b] = .ok resC9b ∧
    expandString pTok "[[PERSON.ICECREAM]]" = .error TokenErr.unknownAttribute := by
  refine ⟨?_, by decide, by decide, by decide⟩
  unfold expandToken
  simp only [h1]
  rw [h2]
  have hres : resolveRef p (TokenRef.person attr) = .ok "" := by
    unfold resolveRef lookupAttr
    simp only [h3]
  simp only [hres]
  cases hdf : tk.dateFormat <;> simp

theorem C9_witness :
    expandToken pTok "PERSON.GP_PRACTICE".data = .ok "" ∧
    expandString pTok "Your GP practice code is [[PERSON.GP_PRACTICE]]." =
      .ok "Your GP practice code is ." ∧
    get_eligibility_status 20250425 pTok mFalse [cC9b] = .ok resC9b ∧
    expandString pTok "[[PERSON.ICECREAM]]" = .error TokenErr.unknownAttribute :=
  C9_missing_value_renders_empty pTok "PERSON.GP_PRACTICE".data
    ⟨TokenRef.person "GP_PRACTICE", none⟩ "GP_PRACTICE" "GP_PRACTICE"
    (by decide) rfl (by decide)

end EligibilitySignposting
